import Mathlib

/-!
# Verification of the X-info-scraper scheduling and incremental-merge core

Shallow embedding of the adaptive-scheduling / incremental-merge subsystem of
the scraper repository:

* `src/modules/IncrementalCollector.js` — `getItemId`, `processPostsData`
  (including the replies context-repair walk), `processFollowersData`;
* `src/modules/DatabaseManager.js` — `batchUpsertPosts`, `batchUpsertUsers`,
  `batchInsertFollowings`, `batchUpsertFollowers`, `getCollectedPostIds`,
  `getCollectedFollowerIds`, `getUserIdByUsername`, `upsertUser`,
  `updateTaskStatus`, `getPendingTasksByFrequency`, `updateUserFrequency`
  (rate smoothing and its non-posts branch), `calculateNextRunTime`;
* `src/modules/BatchRunner.js` / `src/batch.js` — the per-task loop of
  `BatchRunner.run`, report generation, and the process exit status of `main`.

JavaScript `undefined`/`null` string-ish values are modelled as `Option String`,
with JS truthiness (`undefined`, `null` and the empty string are falsy) made
explicit.  The MySQL store is modelled as in-memory lists of rows with the
unique-key conflict semantics of the `INSERT ... ON DUPLICATE KEY UPDATE` /
`INSERT IGNORE` statements issued by the code.  Timestamps are naturals
(milliseconds, as in the JS `Date` arithmetic the code performs).
-/

/-- JS truthiness for an optional string: `undefined`/`null` and `""` are falsy. -/
def truthy : Option String → Bool
  | some s => s != ""
  | none => false

/-- JS `a || b` on optional strings: returns `a` when `a` is truthy, else `b`. -/
def jsOr (a b : Option String) : Option String :=
  if truthy a then a else b

/-- JS `a || b` where `b` is a plain (defined) string. -/
def jsOrStr (a : Option String) (b : String) : String :=
  match a with
  | some s => if s = "" then b else s
  | none => b

/-- JS `v || null` — used where the code inserts `post.field || null`. -/
def jsToNull (v : Option String) : Option String :=
  if truthy v then v else none

/--
A raw scraped post/reply record (`rawData` item in
`IncrementalCollector.processPostsData`).  The id-bearing keys are kept
separate because the code consults them in two different precedence orders
(`getItemId` vs the `batchUpsertPosts` column value).  `inReplyTo` is
`Option (Option String)`: the outer layer records whether the pre-processing
walk assigned the field at all (the code may assign an explicit `null`).
-/
structure RawPost where
  idField : Option String := none        -- item.ID
  lowId : Option String := none          -- item.id
  tweetId : Option String := none        -- item.tweet_id
  statusId : Option String := none       -- item.status_id
  userIdCol : Option String := none      -- item['User ID']
  typeTag : Option String := none        -- item.Type
  text : Option String := none           -- item.Text / item.text
  authorUsername : Option String := none -- item['Author Username']
  authorName : Option String := none     -- item['Author Name']
  inReplyTo : Option (Option String) := none -- item.in_reply_to_tweet_id
  convId : Option String := none         -- item.conversation_id
deriving DecidableEq, Repr

/-- `getItemId(item)`: `item.ID || item.id || item.tweet_id || item.status_id || item['User ID']`. -/
def getItemId (r : RawPost) : Option String :=
  jsOr r.idField (jsOr r.lowId (jsOr r.tweetId (jsOr r.statusId r.userIdCol)))

/-- A raw record is kept by the merge iff its `getItemId` is truthy. -/
def validPost (r : RawPost) : Bool := truthy (getItemId r)

/--
Body of the replies context-repair loop in `processPostsData` for one row,
given the running `previousTweetId` and `conversationRootId` values.
-/
def markRow (prev root : Option String) (r : RawPost) : RawPost :=
  if r.typeTag == some "Reply" then
    { r with
      inReplyTo := some prev
      convId := if truthy root then root else if truthy prev then prev else r.convId }
  else
    { r with convId := getItemId r, inReplyTo := some none }

/-- How one row updates the running `conversationRootId`. -/
def stepRoot (root : Option String) (r : RawPost) : Option String :=
  if r.typeTag == some "Reply" then root else getItemId r

/--
The replies pre-processing walk of `processPostsData` (`type === 'replies'`):
walks rows in order threading `previousTweetId` and `conversationRootId`.
-/
def annotateReplies : Option String → Option String → List RawPost → List RawPost
  | _, _, [] => []
  | prev, root, r :: rs => markRow prev root r :: annotateReplies (getItemId r) (stepRoot root r) rs

/-- The running conversation root after the first `i` rows, starting closed. -/
def rootBefore (L : List RawPost) (i : Nat) : Option String :=
  (L.take i).foldl stepRoot none

theorem annotateReplies_length (prev root : Option String) (L : List RawPost) :
    (annotateReplies prev root L).length = L.length := by
  induction L generalizing prev root with
  | nil => rfl
  | cons r rs ih => simp [annotateReplies, ih]

theorem annotateReplies_get (L : List RawPost) (prev root : Option String) (i : Nat)
    (h : i < L.length) (h2 : i < (annotateReplies prev root L).length)
    (hp : i - 1 < L.length) :
    (annotateReplies prev root L).get ⟨i, h2⟩ =
      markRow (if i = 0 then prev else getItemId (L.get ⟨i - 1, hp⟩))
        ((L.take i).foldl stepRoot root) (L.get ⟨i, h⟩) := by
  induction L generalizing prev root i with
  | nil => exact absurd h (by simp)
  | cons r rs ih =>
    cases i with
    | zero => simp [annotateReplies]
    | succ j =>
      have hj : j < rs.length := by simpa using h
      have hj2 : j < (annotateReplies (getItemId r) (stepRoot root r) rs).length := by
        rw [annotateReplies_length]; exact hj
      cases j with
      | zero =>
        have := ih (getItemId r) (stepRoot root r) 0 hj hj2 (by omega)
        simpa [annotateReplies] using this
      | succ k =>
        have hk : k < rs.length := by omega
        have := ih (getItemId r) (stepRoot root r) (k + 1) hj hj2 (by omega)
        simpa [annotateReplies] using this

/-! ## The Entity Store (MySQL tables as in-memory lists of rows) -/

/-- A row of `twitter_users`. `id` is the AUTO_INCREMENT internal id; the
unique key is `username`. `twitterId` is the `user_id` column. -/
structure UserRow where
  id : Nat
  username : Option String
  twitterId : Option String
deriving DecidableEq, Repr

/-- A row of `twitter_posts`; the unique key is `key` (`tweet_id` column,
`NULL` keys never conflict, matching a nullable MySQL unique index). -/
structure PostRow where
  key : Option String
  userId : Nat
  text : Option String
  typeTag : Option String
  inReplyTo : Option String
  convId : Option String
deriving DecidableEq, Repr

/-- A row of `twitter_followers`; unique key `(userId, followerUserId, relationType)`. -/
structure FollowerRow where
  userId : Nat
  followerUserId : Option String
  relationType : String
deriving DecidableEq, Repr

/-- The relational store: users, posts, follower edges (old table), following
edges (new `twitter_followings` table, pairs of internal ids), and the next
AUTO_INCREMENT value for `twitter_users`. -/
structure DB where
  users : List UserRow
  posts : List PostRow
  followers : List FollowerRow
  followings : List (Nat × Nat)
  nextUserId : Nat
deriving DecidableEq, Repr

def emptyDB : DB := { users := [], posts := [], followers := [], followings := [], nextUserId := 1 }

/-- `getUserIdByUsername`: `SELECT id FROM twitter_users WHERE username = ?`. -/
def getUserIdByUsername (db : DB) (username : String) : Option Nat :=
  (db.users.find? (fun u => u.username == some username)).map UserRow.id

/--
`upsertUser` for the fields the merge logic reads: insert a user keyed by
`username`, or update the existing row on conflict (the code then recovers
the id of the conflicting row via `getUserIdByUsername`).  Returns the
internal id together with the updated store.  Rows with a `NULL` username
never conflict (nullable unique index).
-/
def upsertUser (uname : Option String) (twId : Option String) (db : DB) : Nat × DB :=
  match uname with
  | some s =>
    match (db.users.find? (fun u => u.username == some s)).map UserRow.id with
    | some uid =>
      (uid, { db with users := db.users.map (fun u =>
          if u.username == some s then { u with twitterId := twId } else u) })
    | none =>
      (db.nextUserId,
        { db with
          users := db.users ++ [{ id := db.nextUserId, username := some s, twitterId := twId }],
          nextUserId := db.nextUserId + 1 })
  | none =>
    (db.nextUserId,
      { db with
        users := db.users ++ [{ id := db.nextUserId, username := none, twitterId := twId }],
        nextUserId := db.nextUserId + 1 })

/-- `getCollectedPostIds(userId)`: the set of `tweet_id`s already stored for a user. -/
def getCollectedPostIds (db : DB) (userId : Nat) : List String :=
  (db.posts.filter (fun p => p.userId == userId)).filterMap PostRow.key

/-- Membership test mirroring `existingIds.has(String(id))` on a maybe-absent id. -/
def idMem (o : Option String) (ids : List String) : Bool :=
  match o with
  | some s => ids.contains s
  | none => false

/-- The `tweet_id` column value `post.ID || post.tweet_id || post.id` of `batchUpsertPosts`. -/
def postKey (r : RawPost) : Option String :=
  jsOr r.idField (jsOr r.tweetId r.lowId)

/-- The `twitter_posts` row built from one raw record by `batchUpsertPosts`. -/
def postRowOf (r : RawPost) (userId : Nat) : PostRow :=
  { key := postKey r
    userId := userId
    text := r.text
    typeTag := r.typeTag
    inReplyTo := jsToNull (match r.inReplyTo with | some w => w | none => none)
    convId := jsToNull r.convId }

/-- Two post rows conflict iff both have a non-NULL `tweet_id` and they are equal. -/
def postConflict (p nr : PostRow) : Bool :=
  match p.key, nr.key with
  | some a, some b => a == b
  | _, _ => false

/-- `ON DUPLICATE KEY UPDATE` for `twitter_posts`: mutable columns take the
new value; `in_reply_to_tweet_id` and `conversation_id` take
`COALESCE(VALUES(col), old.col)`. -/
def mergePostRow (old nr : PostRow) : PostRow :=
  { key := old.key
    userId := nr.userId
    text := nr.text
    typeTag := nr.typeTag
    inReplyTo := match nr.inReplyTo with | some s => some s | none => old.inReplyTo
    convId := match nr.convId with | some s => some s | none => old.convId }

/-- Insert one row, or update the (unique) conflicting row in place. -/
def upsertPostInto : List PostRow → PostRow → List PostRow
  | [], nr => [nr]
  | p :: ps, nr =>
    if postConflict p nr then mergePostRow p nr :: ps
    else p :: upsertPostInto ps nr

/-- `batchUpsertPosts(postsData, userId)`: rows of one multi-row
`INSERT ... ON DUPLICATE KEY UPDATE` are applied in listing order (the
chunking by 1000 does not change the resulting store). -/
def batchUpsertPosts (postsData : List RawPost) (userId : Nat) (db : DB) : DB :=
  { db with posts := postsData.foldl (fun ps r => upsertPostInto ps (postRowOf r userId)) db.posts }

/-- The outcome record `{total, new, updated, data}` of the posts merge. -/
structure MergeResult where
  total : Nat
  new : Nat
  updated : Nat
  data : List RawPost
deriving DecidableEq, Repr

/--
`IncrementalCollector.processPostsData(username, type, rawData)` in database
mode: filter invalid records, run the replies context-repair walk when
`type === 'replies'`, resolve/create the owning user, classify each record as
new/updated against the already-stored ids, then bulk-upsert.  Returns the
merge counters and the updated store.
-/
def processPostsData (username ty : String) (rawData : List RawPost) (db : DB) :
    MergeResult × DB :=
  if rawData.isEmpty then ({ total := 0, new := 0, updated := 0, data := [] }, db)
  else
    let validData := rawData.filter validPost
    if validData.isEmpty then ({ total := 0, new := 0, updated := 0, data := [] }, db)
    else
      let vd := if ty == "replies" then annotateReplies none none validData else validData
      let step1 :=
        match getUserIdByUsername db username with
        | some uid => (uid, db)
        | none =>
          match vd.head? with
          | some firstPost => upsertUser (some (jsOrStr firstPost.authorUsername username)) none db
          | none => (0, db)
      let userId := step1.1
      let db1 := step1.2
      let existingIds := getCollectedPostIds db1 userId
      let newCount :=
        (vd.filter (fun r => truthy (getItemId r) && !(idMem (getItemId r) existingIds))).length
      let updateCount :=
        (vd.filter (fun r => truthy (getItemId r) && idMem (getItemId r) existingIds)).length
      let db2 := batchUpsertPosts vd userId db1
      ({ total := vd.length, new := newCount, updated := updateCount, data := vd }, db2)

/-! ## Followers / following merge (`processFollowersData`) -/

/-- A raw scraped follow-listing record. -/
structure RawUser where
  userIdCol : Option String := none  -- item['User ID']
  lowUserId : Option String := none  -- item.user_id
  username : Option String := none   -- item.Username / item.username
  name : Option String := none
deriving DecidableEq, Repr

/-- The id used by the follow merge: `item['User ID'] || item.user_id`. -/
def followId (r : RawUser) : Option String :=
  jsOr r.userIdCol r.lowUserId

/-- One row of the `batchUpsertUsers` bulk upsert (keyed by `username`). -/
def upsertUserRowF (db : DB) (r : RawUser) : DB :=
  (upsertUser r.username (followId r) db).2

/-- `batchUpsertUsers(usersData)`: bulk upsert of the followed users. -/
def batchUpsertUsers (usersData : List RawUser) (db : DB) : DB :=
  usersData.foldl upsertUserRowF db

/-- The `idMap[twitterId]` lookup built from
`SELECT id, user_id FROM twitter_users WHERE user_id IN (...)`. -/
def idMapLookup (db : DB) (tid : String) : Option Nat :=
  (db.users.find? (fun u => u.twitterId == some tid)).map UserRow.id

/-- The `targetInternalIds` collection loop of the `following` branch:
records whose `twitterId` is truthy and present in the id map. -/
def targetInternalIds (db : DB) (usersData : List RawUser) : List Nat :=
  usersData.foldl
    (fun acc item =>
      match followId item with
      | some tid =>
        if tid != "" then
          match idMapLookup db tid with
          | some iid => acc ++ [iid]
          | none => acc
        else acc
      | none => acc) []

/-- `batchInsertFollowings`: `INSERT IGNORE` of `(source, target)` pairs;
returns the number of rows actually inserted (`affectedRows`). -/
def batchInsertFollowings (sourceUserId : Nat) (targets : List Nat) (db : DB) : Nat × DB :=
  targets.foldl
    (fun acc t =>
      if acc.2.followings.contains (sourceUserId, t) then acc
      else (acc.1 + 1, { acc.2 with followings := acc.2.followings ++ [(sourceUserId, t)] }))
    (0, db)

/-- `getCollectedFollowerIds(userId, relationType)`. -/
def getCollectedFollowerIds (db : DB) (userId : Nat) (relationType : String) : List String :=
  (db.followers.filter (fun f => f.userId == userId && f.relationType == relationType)).filterMap
    FollowerRow.followerUserId

/-- The `twitter_followers` row built by `batchUpsertFollowers`. -/
def followerRowOf (r : RawUser) (userId : Nat) (relationType : String) : FollowerRow :=
  { userId := userId, followerUserId := followId r, relationType := relationType }

/-- Conflict on the `(user_id, follower_user_id, relation_type)` unique key
(`NULL` follower ids never conflict). -/
def followerConflict (p nr : FollowerRow) : Bool :=
  match p.followerUserId, nr.followerUserId with
  | some a, some b => p.userId == nr.userId && a == b && p.relationType == nr.relationType
  | _, _ => false

/-- Insert one follower row or update the conflicting one (the update only
touches descriptive columns, which this model does not track). -/
def upsertFollowerInto : List FollowerRow → FollowerRow → List FollowerRow
  | [], nr => [nr]
  | p :: ps, nr =>
    if followerConflict p nr then p :: ps
    else p :: upsertFollowerInto ps nr

/-- `batchUpsertFollowers(followersData, userId, relationType)`. -/
def batchUpsertFollowers (followersData : List RawUser) (userId : Nat) (relationType : String)
    (db : DB) : DB :=
  { db with
    followers := followersData.foldl
      (fun fs r => upsertFollowerInto fs (followerRowOf r userId relationType)) db.followers }

/-- The outcome record of the follow merge. -/
structure FollowResult where
  total : Nat
  new : Nat
  updated : Nat
  data : List RawUser
deriving DecidableEq, Repr

/--
`IncrementalCollector.processFollowersData(username, type, rawData)` in
database mode.  Note: unlike `processPostsData`, no filtering of records
lacking a usable id takes place; `total` is always the raw batch size.
-/
def processFollowersData (username ty : String) (rawData : List RawUser) (db : DB) :
    FollowResult × DB :=
  if rawData.isEmpty then ({ total := 0, new := 0, updated := 0, data := [] }, db)
  else
    let step1 :=
      match getUserIdByUsername db username with
      | some uid => (uid, db)
      | none => upsertUser (some username) none db
    let userId := step1.1
    let db1 := step1.2
    if ty == "following" then
      let db2 := batchUpsertUsers rawData db1
      let step3 := batchInsertFollowings userId (targetInternalIds db2 rawData) db2
      ({ total := rawData.length, new := step3.1, updated := 0, data := rawData }, step3.2)
    else
      let relationType := if ty == "followers" then "follower" else "following"
      let existingIds := getCollectedFollowerIds db1 userId relationType
      let newCount :=
        (rawData.filter (fun r => truthy (followId r) && !(idMem (followId r) existingIds))).length
      let updateCount :=
        (rawData.filter (fun r => truthy (followId r) && idMem (followId r) existingIds)).length
      let db2 := batchUpsertFollowers rawData userId relationType db1
      ({ total := rawData.length, new := newCount, updated := updateCount, data := rawData }, db2)

/-! ## Task scheduling (`scrape_tasks` table) -/

/-- A row of `scrape_tasks`.  Timestamps are milliseconds. -/
structure TaskRow where
  id : Nat
  username : String
  taskType : String
  enabled : Bool
  status : String
  lastRunAt : Option Nat
  nextRunAt : Option Nat
  nextRunTime : Option Nat
  frequencyGroup : Option String
  errorMessage : Option String
  lastPostCount : Option Nat
  updatedAt : Option Nat
deriving DecidableEq, Repr

/-- The full WHERE clause of the first (user-sampling) query of
`getPendingTasksByFrequency`: enabled, not running, eligibility window open,
and frequency-group match (unless the filter is `'all'`). -/
def pendingWhere (now : Nat) (frequencyGroup : String) (t : TaskRow) : Bool :=
  t.enabled && t.status != "running" &&
    (match t.nextRunTime with | none => true | some v => v ≤ now) &&
    (frequencyGroup == "all" || t.frequencyGroup == some frequencyGroup)

/-- The distinct usernames satisfying the full filter — the population from
which `ORDER BY RAND() LIMIT ?` samples. -/
def eligibleUsernames (store : List TaskRow) (now : Nat) (frequencyGroup : String) : List String :=
  ((store.filter (pendingWhere now frequencyGroup)).map TaskRow.username).dedup

/-- The WHERE clause of the second (task-collecting) query: only
`enabled = TRUE AND status != 'running' AND username IN (sample)` — the
eligibility window and frequency group are NOT re-checked. -/
def secondQueryWhere (sample : List String) (t : TaskRow) : Bool :=
  t.enabled && t.status != "running" && sample.contains t.username

/--
`getPendingTasksByFrequency(frequencyGroup, limit)`.  The random user sample
produced by the first query is passed in as `sample`; a legitimate sample is
a sublist of `eligibleUsernames store now frequencyGroup` of size at most the
limit.  The second query then returns all tasks of the sampled users passing
`secondQueryWhere`.
-/
def getPendingTasksByFrequency (store : List TaskRow) (now : Nat) (frequencyGroup : String)
    (sample : List String) : List TaskRow :=
  if sample.isEmpty then []
  else store.filter (secondQueryWhere sample)

/-- The per-row effect of `updateTaskStatus(taskId, status, errorMessage,
nextRunAt)`: matching rows get the new status, `last_run_at = NOW()`, the
error message, `updated_at = NOW()`, and — only when a `nextRunAt` argument
was supplied — a new `next_run_at`.  `next_run_time` is never touched. -/
def updateTaskRow (taskId : Nat) (status : String) (errMsg : Option String)
    (nextRunAt : Option Nat) (now : Nat) (t : TaskRow) : TaskRow :=
  if t.id == taskId then
    { t with
      status := status
      lastRunAt := some now
      errorMessage := errMsg
      updatedAt := some now
      nextRunAt := match nextRunAt with | some v => some v | none => t.nextRunAt }
  else t

/-- `updateTaskStatus` over the whole table. -/
def updateTaskStatus (store : List TaskRow) (taskId : Nat) (status : String)
    (errMsg : Option String) (nextRunAt : Option Nat) (now : Nat) : List TaskRow :=
  store.map (updateTaskRow taskId status errMsg nextRunAt now)

/-- The failure-path call in `BatchRunner.run`'s catch block:
`updateTaskStatus(user.taskId, 'failed', error.message)` — no `nextRunAt`. -/
def markTaskFailed (store : List TaskRow) (taskId : Nat) (msg : String) (now : Nat) :
    List TaskRow :=
  updateTaskStatus store taskId "failed" (some msg) none now

/-! ## The non-posts branch of `updateUserFrequency` (parameter binding) -/

/-- A value bound to a MySQL placeholder. -/
inductive SqlValue where
  | s : String → SqlValue
  | n : Int → SqlValue
deriving DecidableEq, Repr

/-- The parameter array the code passes for the non-`posts` UPDATE:
`['low', totalPostCount, nextRunTime, taskId]`. -/
def nonPostsUpdateParams (totalPostCount : Int) (nextRunTime : String) (taskId : Int) :
    List SqlValue :=
  [SqlValue.s "low", SqlValue.n totalPostCount, SqlValue.s nextRunTime, SqlValue.n taskId]

/-- The non-`posts` UPDATE statement contains exactly three placeholders:
`last_post_count = ?`, `next_run_time = ?`, `WHERE id = ?`
(`frequency_group = 'low'` is a literal). -/
def nonPostsPlaceholderCount : Nat := 3

/-- mysql2 placeholder substitution: the first `phCount` parameters are bound
to the placeholders in order; surplus parameters are ignored. -/
def bindPlaceholders (phCount : Nat) (params : List SqlValue) : List SqlValue :=
  params.take phCount

/-! ## Rate smoothing of `updateUserFrequency` (`posts` branch) -/

/-- JS `x || d` on an optional numeric column (`0`, `null` and `undefined`
are falsy). -/
def jsNumOr (a : Option ℚ) (d : ℚ) : ℚ :=
  match a with
  | some x => if x = 0 then d else x
  | none => d

/-- The `[0, 100]` clamp applied to the smoothed rate. -/
def clampRate (x : ℚ) : ℚ := max 0 (min 100 x)

/--
The smoothed `avg_posts_per_day` computed by `updateUserFrequency` for a
`posts` task: first observation seeds the stored value (or the default 2);
intervals shorter than 0.04 days keep the history; shorter than 0.5 days
blend 70% history / 30% current; otherwise 30% history / 70% current;
the blended value is clamped to `[0, 100]`.
-/
def updateAvgPostsPerDay (storedAvg : Option ℚ) (lastCount : ℚ) (hasLastRun : Bool)
    (daysSince : ℚ) (totalCount : ℚ) : ℚ :=
  let newPosts := max 0 (totalCount - lastCount)
  if hasLastRun = false ∨ lastCount = 0 then jsNumOr storedAvg 2
  else
    clampRate
      (if daysSince < 1 / 25 then jsNumOr storedAvg 2
       else if daysSince < 1 / 2 then
         jsNumOr storedAvg 2 * (7 / 10) + newPosts / daysSince * (3 / 10)
       else
         jsNumOr storedAvg (newPosts / daysSince) * (3 / 10) + newPosts / daysSince * (7 / 10))

/-- One observation fed to the classifier. -/
structure RateObs where
  lastCount : ℚ
  hasLastRun : Bool
  daysSince : ℚ
  totalCount : ℚ

/-- Iterating the classifier over a sequence of observations, persisting the
smoothed rate after every step. -/
def runAvgPostsPerDay (init : Option ℚ) (obs : List RateObs) : Option ℚ :=
  obs.foldl
    (fun st o => some (updateAvgPostsPerDay st o.lastCount o.hasLastRun o.daysSince o.totalCount))
    init

/-- The stored rate is absent or within `[0, 100]`. -/
def rateOk (st : Option ℚ) : Prop :=
  st = none ∨ ∃ a, st = some a ∧ 0 ≤ a ∧ a ≤ 100

/-! ## `calculateNextRunTime` (operational-window clamp) -/

def msPerHour : Nat := 3600000

def msPerDay : Nat := 86400000

/-- `Date.prototype.getUTCHours` on a millisecond timestamp. -/
def utcHourOf (t : Nat) : Nat := t / msPerHour % 24

/-- `setUTCHours(8, 0, 0, 0)`: same UTC day, 08:00:00.000. -/
def atHour8 (t : Nat) : Nat := t / msPerDay * msPerDay + 8 * msPerHour

/--
`calculateNextRunTime(hours)` on a given `nowMs`: shift to Beijing time
(UTC+8), add the interval, clamp the Beijing hour-of-day into `[8, 24)`
(before 8 → 08:00 same day; at/after 24 → 08:00 next day, a branch
`getUTCHours` can never trigger), then shift back to UTC.
-/
def calculateNextRunTime (nowMs : Nat) (hours : Nat) : Nat :=
  let bjNow := nowMs + 8 * msPerHour
  let nextRun := bjNow + hours * msPerHour
  let bjHour := utcHourOf nextRun
  let adjusted :=
    if bjHour < 8 then atHour8 nextRun
    else if 24 ≤ bjHour then atHour8 (nextRun + msPerDay)
    else nextRun
  adjusted - 8 * msPerHour

/-! ## `BatchRunner.run` and the process exit status -/

/-- What one task's collection+merge produced: a result, or a thrown error. -/
inductive TaskOutcome where
  | ok (total : Nat) (newCount : Nat)
  | err (msg : String)
deriving DecidableEq, Repr

/-- One entry of `this.results`. -/
structure TaskResult where
  status : String
  dataCount : Nat
  newDataCount : Nat
  errMsg : Option String
deriving DecidableEq, Repr

/--
The per-task loop of `BatchRunner.run`: a successful task is recorded with
status `'success'`; a failing task is recorded with status `'error'` and, when
`continueOnError` is false, its error is rethrown (second component), ending
the loop.
-/
def processTaskLoop (continueOnError : Bool) : List TaskOutcome → List TaskResult × Option String
  | [] => ([], none)
  | TaskOutcome.ok t n :: os =>
    let rest := processTaskLoop continueOnError os
    ({ status := "success", dataCount := t, newDataCount := n, errMsg := none } :: rest.1, rest.2)
  | TaskOutcome.err m :: os =>
    let r : TaskResult := { status := "error", dataCount := 0, newDataCount := 0, errMsg := some m }
    if continueOnError then
      let rest := processTaskLoop continueOnError os
      (r :: rest.1, rest.2)
    else ([r], some m)

/-- The `generateReport` summary. -/
structure Report where
  successCount : Nat
  errorCount : Nat
  globalError : Option String
  results : List TaskResult
deriving DecidableEq, Repr

def generateReport (results : List TaskResult) (e : Option String) : Report :=
  { successCount := (results.filter (fun r => r.status == "success")).length
    errorCount := (results.filter (fun r => r.status == "error")).length
    globalError := e
    results := results }

/--
`BatchRunner.run`: the outer `try`/`catch` converts an error rethrown from the
task loop into a normally-returned report (`generateReport(error)`), so the
method never propagates a per-task failure as an exception.
-/
def batchRunnerRun (continueOnError : Bool) (outcomes : List TaskOutcome) :
    Except String Report :=
  let loop := processTaskLoop continueOnError outcomes
  Except.ok (generateReport loop.1 loop.2)

/-- The exit status of `main` for a batch invocation: `process.exit(1)` fires
only when `runBatch` (hence `BatchRunner.run`) throws. -/
def mainExitCode (continueOnError : Bool) (outcomes : List TaskOutcome) : Nat :=
  match batchRunnerRun continueOnError outcomes with
  | Except.ok _ => 0
  | Except.error _ => 1

/-! ## Concrete instances used by counterexamples and witnesses -/

/-- A fully eligible `posts` task of user alice in the `high` frequency group. -/
def taskAlicePosts : TaskRow :=
  { id := 1, username := "alice", taskType := "posts", enabled := true, status := "pending",
    lastRunAt := none, nextRunAt := none, nextRunTime := none, frequencyGroup := some "high",
    errorMessage := none, lastPostCount := none, updatedAt := none }

/-- A `replies` task of the same user whose eligibility window is still closed
and whose frequency group is `low`. -/
def taskAliceReplies : TaskRow :=
  { id := 2, username := "alice", taskType := "replies", enabled := true, status := "pending",
    lastRunAt := none, nextRunAt := none, nextRunTime := some 2000, frequencyGroup := some "low",
    errorMessage := none, lastPostCount := none, updatedAt := none }

def sampleStore : List TaskRow := [taskAlicePosts, taskAliceReplies]

/-- A raw follow-listing record carrying no usable unique identifier. -/
def noIdUser : RawUser := { userIdCol := none, lowUserId := none, username := none, name := none }

/-- A valid raw post with the given `ID` column and type tag. -/
def mkPost (i : String) (ty : String) : RawPost :=
  { idField := some i, typeTag := some ty, authorUsername := some "alice" }

/-- A raw post record lacking every id-bearing key. -/
def noIdPost : RawPost := { text := some "orphan" }

/-- The reply-chain scenario batch `[{id:1,Post},{id:2,Reply},{id:3,Reply},{id:4,Post}]`. -/
def chainBatch : List RawPost :=
  [mkPost "1" "Post", mkPost "2" "Reply", mkPost "3" "Reply", mkPost "4" "Post"]

/-- The expected annotation of `chainBatch`: record 2 gets parent 1 / root 1,
record 3 gets parent 2 / root 1, record 4 restarts with root 4. -/
def chainExpected : List RawPost :=
  [{ mkPost "1" "Post" with inReplyTo := some none, convId := some "1" },
   { mkPost "2" "Reply" with inReplyTo := some (some "1"), convId := some "1" },
   { mkPost "3" "Reply" with inReplyTo := some (some "2"), convId := some "1" },
   { mkPost "4" "Post" with inReplyTo := some none, convId := some "4" }]

/-- A batch of five raw posts of which two lack an id. -/
def fiveBatch : List RawPost :=
  [mkPost "1" "Post", noIdPost, mkPost "2" "Post", { text := some "also orphan" },
   mkPost "3" "Post"]

/-- A two-record batch of valid posts with distinct ids. -/
def twoBatch : List RawPost := [mkPost "11" "Post", mkPost "12" "Post"]

/-- A record that is valid for the merge — `getItemId` finds its id — but
carries it only in the `status_id` column, which the `batchUpsertPosts`
key (`post.ID || post.tweet_id || post.id`) does not consult. -/
def statusOnlyPost : RawPost := { statusId := some "5", authorUsername := some "alice" }

/-! ## Claim theorems -/

/--
C6: for every input time and every non-negative interval in hours, the
timestamp computed by `calculateNextRunTime` has a Beijing-local (UTC+8)
hour-of-day inside the operational window `[8, 24)`; when `now + interval`
lands at a local hour before 8 the result is 08:00 of the same local day, and
the at-or-after-24 clause is the (never-triggering) push to 08:00 of the next
local day — captured by the exact branch equation below.
-/
theorem calculateNextRunTime_window (nowMs hours : Nat) :
    8 ≤ utcHourOf (calculateNextRunTime nowMs hours + 8 * msPerHour) ∧
    utcHourOf (calculateNextRunTime nowMs hours + 8 * msPerHour) < 24 ∧
    calculateNextRunTime nowMs hours + 8 * msPerHour =
      (if utcHourOf (nowMs + 8 * msPerHour + hours * msPerHour) < 8 then
        atHour8 (nowMs + 8 * msPerHour + hours * msPerHour)
      else if 24 ≤ utcHourOf (nowMs + 8 * msPerHour + hours * msPerHour) then
        atHour8 (nowMs + 8 * msPerHour + hours * msPerHour + msPerDay)
      else nowMs + 8 * msPerHour + hours * msPerHour) := by
  simp only [calculateNextRunTime, utcHourOf, atHour8, msPerHour, msPerDay]
  split_ifs <;> omega

/--
C3 (code bug): the non-`posts` branch of `updateUserFrequency` issues an
UPDATE with three placeholders (`last_post_count`, `next_run_time`,
`WHERE id`) but passes four parameters `['low', totalPostCount, nextRunTime,
taskId]`.  Binding the placeholders in order therefore stores the string
`'low'` into `last_post_count` (never the observed count), binds the observed
count to `next_run_time`, and binds the datetime string — never the task id —
to the `WHERE id` placeholder, so the intended row is not updated as the
specification describes.
-/
theorem updateUserFrequency_nonposts_binding (totalPostCount : Int) (nextRunTime : String)
    (taskId : Int) :
    bindPlaceholders nonPostsPlaceholderCount
        (nonPostsUpdateParams totalPostCount nextRunTime taskId) =
      [SqlValue.s "low", SqlValue.n totalPostCount, SqlValue.s nextRunTime] ∧
    (∀ c : Int, SqlValue.s "low" ≠ SqlValue.n c) ∧
    (∀ i : Int, SqlValue.s nextRunTime ≠ SqlValue.n i) := by
  refine ⟨rfl, ?_, ?_⟩ <;> intro x <;> simp

/--
C9 counterexample: a batch with a single failing task and
`continueOnError = false` still exits with status 0 — `BatchRunner.run`'s
outer catch turns the rethrown task error into a normally returned report, so
no exception ever reaches `main`'s `process.exit(1)`.  The claim's required
non-zero exit status is therefore false at this input.
-/
theorem mainExitCode_failed_task_cex :
    mainExitCode false [TaskOutcome.err "boom"] = 0 ∧
    (generateReport (processTaskLoop false [TaskOutcome.err "boom"]).1
        (processTaskLoop false [TaskOutcome.err "boom"]).2).errorCount = 1 ∧
    ¬ mainExitCode false [TaskOutcome.err "boom"] ≠ 0 := by
  refine ⟨rfl, rfl, ?_⟩
  simp [mainExitCode, batchRunnerRun]

/--
C9 amended: the batch exit status is 0 for every sequence of per-task
outcomes and either value of `continueOnError` — task failures (even with
`continueOnError = false`) are captured in the report (`errorCount`,
`globalError`) and never produce a non-zero exit; a non-zero exit can only
come from an error outside the task loop (initialisation/login).
-/
theorem mainExitCode_always_zero (continueOnError : Bool) (outcomes : List TaskOutcome) :
    mainExitCode continueOnError outcomes = 0 ∧
    batchRunnerRun continueOnError outcomes =
      Except.ok (generateReport (processTaskLoop continueOnError outcomes).1
        (processTaskLoop continueOnError outcomes).2) := by
  exact ⟨rfl, rfl⟩

/-- Any clamped rate lies in `[0, 100]`. -/
theorem clampRate_bounds (x : ℚ) : 0 ≤ clampRate x ∧ clampRate x ≤ 100 := by
  constructor
  · exact le_max_left 0 (min 100 x)
  · exact max_le (by norm_num) (min_le_left 100 x)

/-- The single-step bound behind C5. -/
theorem updateAvgPostsPerDay_bounds (storedAvg : Option ℚ) (h : rateOk storedAvg)
    (lc : ℚ) (hlr : Bool) (ds tc : ℚ) :
    0 ≤ updateAvgPostsPerDay storedAvg lc hlr ds tc ∧
      updateAvgPostsPerDay storedAvg lc hlr ds tc ≤ 100 := by
  have hseed : 0 ≤ jsNumOr storedAvg 2 ∧ jsNumOr storedAvg 2 ≤ 100 := by
    rcases h with h | ⟨a, rfl, h0, h100⟩
    · subst h; exact ⟨by norm_num [jsNumOr], by norm_num [jsNumOr]⟩
    · simp only [jsNumOr]
      split_ifs with ha
      · exact ⟨by norm_num, by norm_num⟩
      · exact ⟨h0, h100⟩
  unfold updateAvgPostsPerDay
  dsimp only
  split_ifs <;> first
    | exact hseed
    | exact clampRate_bounds _

/--
C5: the smoothed rate is an invariant of the Rate Classifier — starting from
a stored `avg_posts_per_day` that is absent or in `[0, 100]`, one update with
any observed count, any previous count and any elapsed time stays in
`[0, 100]`, and consequently every sequence of observations (in particular
one starting from the unseeded state) keeps the persisted value in
`[0, 100]`.
-/
theorem avgPostsPerDay_clamped (storedAvg : Option ℚ) (h : rateOk storedAvg) :
    (∀ (lc : ℚ) (hlr : Bool) (ds tc : ℚ),
      0 ≤ updateAvgPostsPerDay storedAvg lc hlr ds tc ∧
        updateAvgPostsPerDay storedAvg lc hlr ds tc ≤ 100) ∧
    (∀ obs : List RateObs, rateOk (runAvgPostsPerDay storedAvg obs)) := by
  constructor
  · intro lc hlr ds tc
    exact updateAvgPostsPerDay_bounds storedAvg h lc hlr ds tc
  · intro obs
    induction obs generalizing storedAvg with
    | nil => exact h
    | cons o os ih =>
      apply ih
      rcases updateAvgPostsPerDay_bounds storedAvg h o.lastCount o.hasLastRun o.daysSince
        o.totalCount with ⟨h0, h100⟩
      exact Or.inr ⟨_, rfl, h0, h100⟩

/-- C5 witness: a concrete application of `avgPostsPerDay_clamped` at the
unseeded state and one concrete observation. -/
theorem avgPostsPerDay_clamped_witness :
    0 ≤ updateAvgPostsPerDay none 2 true 1 5 ∧ updateAvgPostsPerDay none 2 true 1 5 ≤ 100 :=
  (avgPostsPerDay_clamped none (Or.inl rfl)).1 2 true 1 5

/--
C8: the failure-path status update persists status `'failed'` and the error
message verbatim, and leaves both `next_run_time` and `next_run_at`
unchanged on every row (no backoff is applied when the caller supplies no
`nextRunAt`); rows other than the task's are untouched entirely.
-/
theorem markTaskFailed_frame (store : List TaskRow) (taskId : Nat) (msg : String) (now : Nat)
    (t : TaskRow) (ht : t ∈ store) :
    updateTaskRow taskId "failed" (some msg) none now t ∈ markTaskFailed store taskId msg now ∧
    (updateTaskRow taskId "failed" (some msg) none now t).nextRunTime = t.nextRunTime ∧
    (updateTaskRow taskId "failed" (some msg) none now t).nextRunAt = t.nextRunAt ∧
    (t.id = taskId →
      (updateTaskRow taskId "failed" (some msg) none now t).status = "failed" ∧
      (updateTaskRow taskId "failed" (some msg) none now t).errorMessage = some msg) ∧
    (t.id ≠ taskId → updateTaskRow taskId "failed" (some msg) none now t = t) := by
  refine ⟨List.mem_map_of_mem _ ht, ?_, ?_, ?_, ?_⟩ <;>
    simp only [updateTaskRow] <;> split_ifs with hid <;> simp_all

/-- C8 witness: concrete store with one task. -/
theorem markTaskFailed_frame_witness :
    (updateTaskRow 7 "failed" (some "navigation timeout") none 1000
        { id := 7, username := "alice", taskType := "posts", enabled := true,
          status := "running", lastRunAt := none, nextRunAt := some 500,
          nextRunTime := some 900, frequencyGroup := some "high", errorMessage := none,
          lastPostCount := none, updatedAt := none }).nextRunTime = some 900 ∧
    (updateTaskRow 7 "failed" (some "navigation timeout") none 1000
        { id := 7, username := "alice", taskType := "posts", enabled := true,
          status := "running", lastRunAt := none, nextRunAt := some 500,
          nextRunTime := some 900, frequencyGroup := some "high", errorMessage := none,
          lastPostCount := none, updatedAt := none }).status = "failed" := by
  have h := markTaskFailed_frame
    [{ id := 7, username := "alice", taskType := "posts", enabled := true,
       status := "running", lastRunAt := none, nextRunAt := some 500,
       nextRunTime := some 900, frequencyGroup := some "high", errorMessage := none,
       lastPostCount := none, updatedAt := none }] 7 "navigation timeout" 1000
    { id := 7, username := "alice", taskType := "posts", enabled := true,
      status := "running", lastRunAt := none, nextRunAt := some 500,
      nextRunTime := some 900, frequencyGroup := some "high", errorMessage := none,
      lastPostCount := none, updatedAt := none } (by simp)
  exact ⟨h.2.1, (h.2.2.2.1 rfl).1⟩

/--
C4 counterexample: with store `sampleStore`, filter `'high'` and the
legitimate random sample `["alice"]` (alice's posts task satisfies the full
filter), the returned task list also contains alice's replies task, whose
eligibility window is closed (`next_run_time = 2000 > now = 1000`) and whose
frequency group is `'low' ≠ 'high'` — so not every returned task satisfies
the full eligibility filter, refuting the claim at this input.
-/
theorem getPendingTasksByFrequency_filter_cex :
    (∀ u ∈ ["alice"], u ∈ eligibleUsernames sampleStore 1000 "high") ∧
    taskAliceReplies ∈ getPendingTasksByFrequency sampleStore 1000 "high" ["alice"] ∧
    pendingWhere 1000 "high" taskAliceReplies = false ∧
    ¬ (∀ t ∈ getPendingTasksByFrequency sampleStore 1000 "high" ["alice"],
        pendingWhere 1000 "high" t = true) := by
  refine ⟨by decide, by decide, by decide, ?_⟩
  intro hall
  have := hall taskAliceReplies (by decide)
  simp at this
  exact absurd this (by decide)

/--
C4 amended: every task returned by `getPendingTasksByFrequency` is enabled
and not running, and belongs to a sampled entity that has at least one task
satisfying the full eligibility filter (window open and frequency-group
match); the window and frequency conditions are, however, only guaranteed for
some task of that entity, not for each returned task, because the second
query does not re-check them.
-/
theorem getPendingTasksByFrequency_partial_filter (store : List TaskRow) (now : Nat)
    (frequencyGroup : String) (sample : List String)
    (hs : ∀ u ∈ sample, u ∈ eligibleUsernames store now frequencyGroup) :
    ∀ t ∈ getPendingTasksByFrequency store now frequencyGroup sample,
      t.enabled = true ∧ t.status ≠ "running" ∧
      ∃ t2 ∈ store, t2.username = t.username ∧ pendingWhere now frequencyGroup t2 = true := by
  intro t ht
  unfold getPendingTasksByFrequency at ht
  split_ifs at ht with hemp
  · exact absurd ht (by simp)
  · rw [List.mem_filter] at ht
    obtain ⟨htst, hq⟩ := ht
    simp only [secondQueryWhere, Bool.and_eq_true] at hq
    obtain ⟨⟨hen, hst⟩, hcont⟩ := hq
    have hu : t.username ∈ sample := by
      simpa using hcont
    have := hs t.username hu
    unfold eligibleUsernames at this
    rw [List.mem_dedup, List.mem_map] at this
    obtain ⟨t2, ht2, hname⟩ := this
    rw [List.mem_filter] at ht2
    refine ⟨hen, by simpa using hst, t2, ht2.1, hname, ht2.2⟩

/-- C4 amended, witness: the amended statement applied at the concrete
counterexample store and sample, instantiated at the returned replies task. -/
theorem getPendingTasksByFrequency_partial_filter_witness :
    taskAliceReplies.enabled = true ∧ taskAliceReplies.status ≠ "running" ∧
    ∃ t2 ∈ sampleStore, t2.username = taskAliceReplies.username ∧
      pendingWhere 1000 "high" t2 = true :=
  getPendingTasksByFrequency_partial_filter sampleStore 1000 "high" ["alice"] (by decide)
    taskAliceReplies (by decide)

/--
C7 counterexample: for the `followers` data-type the merge does NOT discard
records lacking a usable unique identifier — a batch consisting of one id-less
record yields `total = 1` (not the claimed count of remaining valid records,
0) and the store is written to (a follower row is inserted), refuting the
claim's "for every data-type".
-/
theorem processFollowersData_no_discard_cex :
    (processFollowersData "alice" "followers" [noIdUser] emptyDB).1.total = 1 ∧
    (processFollowersData "alice" "followers" [noIdUser] emptyDB).2.followers ≠ [] ∧
    ¬ ((processFollowersData "alice" "followers" [noIdUser] emptyDB).1.total = 0 ∧
        (processFollowersData "alice" "followers" [noIdUser] emptyDB).2 = emptyDB) := by
  refine ⟨by decide, by decide, ?_⟩
  intro hcl
  exact absurd hcl.1 (by decide)

/--
C7 amended: the discard behaviour holds for the posts/replies path only —
`processPostsData` drops records whose `getItemId` is falsy before any store
access, reports `total` = number of remaining valid records, and returns the
zero result with the store untouched when none remain; for the
followers/following path `total` is always the raw batch size (no discard
happens there).
-/
theorem merge_discards_invalid_posts (u ty : String) (hty : ty = "posts" ∨ ty = "replies")
    (rawData : List RawPost) (db : DB) :
    (processPostsData u ty rawData db).1.total = (rawData.filter validPost).length ∧
    (rawData.filter validPost = [] →
      processPostsData u ty rawData db = ({ total := 0, new := 0, updated := 0, data := [] }, db)) ∧
    (∀ (u2 ty2 : String) (rd : List RawUser) (db2 : DB),
      ty2 = "followers" ∨ ty2 = "following" →
        (processFollowersData u2 ty2 rd db2).1.total = rd.length) := by
  refine ⟨?_, ?_, ?_⟩
  · unfold processPostsData
    dsimp only
    split_ifs with h1 h2 h3
    · rw [List.isEmpty_iff] at h1
      subst h1
      rfl
    · rw [List.isEmpty_iff] at h2
      rw [h2]
      rfl
    · exact annotateReplies_length none none (rawData.filter validPost)
    · rfl
  · intro hnil
    unfold processPostsData
    dsimp only
    rw [hnil]
    simp
  · intro u2 ty2 rd db2 hty2
    unfold processFollowersData
    dsimp only
    split_ifs with h1 h2 h3
    · rw [List.isEmpty_iff] at h1
      subst h1
      rfl
    · rfl
    · rfl
    · rfl

/-- C7 amended, witness: five posts of which two lack an id yield `total = 3`;
an all-invalid batch returns the zero result without touching the store; a
followers batch reports the raw size. -/
theorem merge_discards_invalid_posts_witness :
    (processPostsData "alice" "posts" fiveBatch emptyDB).1.total =
      (fiveBatch.filter validPost).length ∧
    processPostsData "alice" "posts" [noIdPost] emptyDB =
      ({ total := 0, new := 0, updated := 0, data := [] }, emptyDB) ∧
    (processFollowersData "bob" "followers" [noIdUser] emptyDB).1.total = [noIdUser].length := by
  refine ⟨(merge_discards_invalid_posts "alice" "posts" (Or.inl rfl) fiveBatch emptyDB).1,
    (merge_discards_invalid_posts "alice" "posts" (Or.inl rfl) [noIdPost] emptyDB).2.1 (by decide),
    (merge_discards_invalid_posts "alice" "posts" (Or.inl rfl) fiveBatch emptyDB).2.2
      "bob" "followers" [noIdUser] emptyDB (Or.inl rfl)⟩

/-- The running conversation root is either still closed or a truthy id, for
batches of valid records. -/
theorem foldl_stepRoot_ok (M : List RawPost) (root : Option String)
    (hv : ∀ r ∈ M, truthy (getItemId r) = true) (hr : root = none ∨ truthy root = true) :
    M.foldl stepRoot root = none ∨ truthy (M.foldl stepRoot root) = true := by
  induction M generalizing root with
  | nil => exact hr
  | cons r rs ih =>
    refine ih (stepRoot root r) (fun x hx => hv x (List.mem_cons_of_mem _ hx)) ?_
    unfold stepRoot
    split_ifs
    · exact hr
    · exact Or.inr (hv r (List.mem_cons_self _ _))

/--
C2: for every ordered batch of valid records processed as `replies`, the
pre-processing walk assigns links exactly as specified — a record tagged
`Reply` (with a predecessor) gets `in_reply_to_tweet_id` = the previous
record's id and `conversation_id` = the running conversation root when one
is open, else the previous record's id; a record not tagged `Reply` gets
`in_reply_to_tweet_id = null` and `conversation_id` = its own id (and opens a
new root, visible through `rootBefore`).  In particular the scenario batch
`[{id:1,Post},{id:2,Reply},{id:3,Reply},{id:4,Post}]` is annotated to
parent 1/root 1, parent 2/root 1, parent null/root 4 as claimed.
-/
theorem annotateReplies_links (L : List RawPost)
    (hv : ∀ r ∈ L, truthy (getItemId r) = true) :
    (∀ i (h1 : i + 1 < L.length) (h2 : i + 1 < (annotateReplies none none L).length)
        (hi : i < L.length),
      ((L.get ⟨i + 1, h1⟩).typeTag = some "Reply" →
        ((annotateReplies none none L).get ⟨i + 1, h2⟩).inReplyTo =
          some (getItemId (L.get ⟨i, hi⟩)) ∧
        ((annotateReplies none none L).get ⟨i + 1, h2⟩).convId =
          (if rootBefore L (i + 1) = none then getItemId (L.get ⟨i, hi⟩)
            else rootBefore L (i + 1))) ∧
      ((L.get ⟨i + 1, h1⟩).typeTag ≠ some "Reply" →
        ((annotateReplies none none L).get ⟨i + 1, h2⟩).inReplyTo = some none ∧
        ((annotateReplies none none L).get ⟨i + 1, h2⟩).convId =
          getItemId (L.get ⟨i + 1, h1⟩))) ∧
    (∀ (h0 : 0 < L.length) (h02 : 0 < (annotateReplies none none L).length),
      (L.get ⟨0, h0⟩).typeTag ≠ some "Reply" →
        ((annotateReplies none none L).get ⟨0, h02⟩).inReplyTo = some none ∧
        ((annotateReplies none none L).get ⟨0, h02⟩).convId = getItemId (L.get ⟨0, h0⟩)) ∧
    annotateReplies none none chainBatch = chainExpected := by
  have hget : ∀ i (h : i < L.length) (h2 : i < (annotateReplies none none L).length)
      (hp : i - 1 < L.length),
      (annotateReplies none none L).get ⟨i, h2⟩ =
        markRow (if i = 0 then none else getItemId (L.get ⟨i - 1, hp⟩)) (rootBefore L i)
          (L.get ⟨i, h⟩) :=
    fun i h h2 hp => annotateReplies_get L none none i h h2 hp
  refine ⟨?_, ?_, by decide⟩
  · intro i h1 h2 hi
    have heq := hget (i + 1) h1 h2 (by omega)
    rw [if_neg (show ¬(i + 1 = 0) by omega)] at heq
    have hip : i + 1 - 1 < L.length := by omega
    have hgeq : L.get ⟨i + 1 - 1, hip⟩ = L.get ⟨i, hi⟩ := rfl
    rw [hgeq] at heq
    have hprev : truthy (getItemId (L.get ⟨i, hi⟩)) = true :=
      hv _ (L.get_mem _ _)
    have hroot : rootBefore L (i + 1) = none ∨ truthy (rootBefore L (i + 1)) = true := by
      refine foldl_stepRoot_ok (L.take (i + 1)) none
        (fun r hr => hv r (List.mem_of_mem_take hr)) (Or.inl rfl)
    constructor
    · intro hty
      have hb : ((L.get ⟨i + 1, h1⟩).typeTag == some "Reply") = true := by
        rw [hty]
        exact beq_self_eq_true _
      rw [heq]
      unfold markRow
      rw [if_pos hb]
      refine ⟨rfl, ?_⟩
      rcases hroot with hn | htr
      · rw [hn]
        rw [if_neg (by decide : ¬(truthy none = true))]
        rw [if_pos hprev]
        rfl
      · have hne : rootBefore L (i + 1) ≠ none := by
          intro hc
          rw [hc] at htr
          exact absurd htr (by decide)
        rw [if_pos htr, if_neg hne]
    · intro hty
      rw [heq]
      unfold markRow
      rw [if_neg (by simpa using hty)]
      exact ⟨rfl, rfl⟩
  · intro h0 h02 hty
    have heq := hget 0 h0 h02 (by omega)
    rw [heq]
    unfold markRow
    rw [if_neg (by simpa using hty)]
    exact ⟨rfl, rfl⟩

/-- C2 witness: the concrete reply-chain scenario, via `annotateReplies_links`. -/
theorem annotateReplies_links_witness :
    annotateReplies none none chainBatch = chainExpected :=
  (annotateReplies_links chainBatch (by decide)).2.2

/--
C10: if the first valid record of a `replies` batch is tagged `Reply`, it is
assigned `in_reply_to_tweet_id = null` while its `conversation_id` field is
left untouched (no conversation root is open yet), and its own id still
becomes the previous-record pointer (and the root stays closed) for the
remainder of the walk.
-/
theorem annotateReplies_first_reply (r : RawPost) (rest : List RawPost)
    (hr : truthy (getItemId r) = true) (ht : r.typeTag = some "Reply") :
    annotateReplies none none (r :: rest) =
      { r with inReplyTo := some none } :: annotateReplies (getItemId r) none rest ∧
    ({ r with inReplyTo := some none } : RawPost).convId = r.convId := by
  refine ⟨?_, rfl⟩
  show markRow none none r :: annotateReplies (getItemId r) (stepRoot none r) rest = _
  have hb : (r.typeTag == some "Reply") = true := by
    rw [ht]
    exact beq_self_eq_true _
  unfold markRow stepRoot
  rw [if_pos hb]
  rw [if_pos hb]
  rfl

/-- C10 witness: a two-record batch starting with a Reply. -/
theorem annotateReplies_first_reply_witness :
    annotateReplies none none [mkPost "9" "Reply", mkPost "8" "Reply"] =
      { mkPost "9" "Reply" with inReplyTo := some none } ::
        annotateReplies (getItemId (mkPost "9" "Reply")) none [mkPost "8" "Reply"] ∧
    ({ mkPost "9" "Reply" with inReplyTo := some none } : RawPost).convId =
      (mkPost "9" "Reply").convId :=
  annotateReplies_first_reply (mkPost "9" "Reply") [mkPost "8" "Reply"] (by decide) rfl

/-! ## Supporting lemmas for the merge-idempotence claim -/

theorem getItemId_of_idField (r : RawPost) (h : truthy r.idField = true) :
    getItemId r = r.idField := by
  unfold getItemId jsOr
  rw [if_pos h]

theorem postKey_of_idField (r : RawPost) (h : truthy r.idField = true) :
    postKey r = r.idField := by
  unfold postKey jsOr
  rw [if_pos h]

theorem idMem_nil (o : Option String) : idMem o [] = false := by
  cases o <;> rfl

theorem contains_of_mem (l : List String) (s : String) (h : s ∈ l) :
    l.contains s = true := by
  induction l with
  | nil => simp at h
  | cons a l ih =>
    rcases List.mem_cons.mp h with h | h
    · subst h
      simp [List.contains_cons]
    · simp only [List.contains_cons, Bool.or_eq_true]
      exact Or.inr (ih h)

theorem postConflict_eq_false (p nr : PostRow) (s : String) (hk : nr.key = some s)
    (hne : p.key ≠ some s) : postConflict p nr = false := by
  unfold postConflict
  rw [hk]
  cases hp : p.key with
  | none => rfl
  | some a =>
    have ha : a ≠ s := fun hc => hne (by rw [hp, hc])
    simp [ha]

theorem upsertPostInto_append (ps : List PostRow) (nr : PostRow)
    (h : ∀ p ∈ ps, postConflict p nr = false) :
    upsertPostInto ps nr = ps ++ [nr] := by
  induction ps with
  | nil => rfl
  | cons p ps ih =>
    unfold upsertPostInto
    rw [if_neg (by simp [h p (List.mem_cons_self _ _)])]
    rw [ih (fun q hq => h q (List.mem_cons_of_mem _ hq))]
    rfl

theorem foldl_upsert_fresh (uid : Nat) (L : List RawPost) (ps : List PostRow)
    (hid : ∀ r ∈ L, truthy r.idField = true)
    (hnd : (L.map RawPost.idField).Nodup)
    (hfresh : ∀ r ∈ L, ∀ p ∈ ps, p.key ≠ r.idField) :
    L.foldl (fun acc r => upsertPostInto acc (postRowOf r uid)) ps =
      ps ++ L.map (fun r => postRowOf r uid) := by
  induction L generalizing ps with
  | nil => simp
  | cons r rs ih =>
    have hidr := hid r (List.mem_cons_self _ _)
    obtain ⟨s, hs⟩ : ∃ s, r.idField = some s := by
      cases hrf : r.idField with
      | none => rw [hrf] at hidr; exact absurd hidr (by decide)
      | some a => exact ⟨a, rfl⟩
    have hnd2 : (r.idField :: rs.map RawPost.idField).Nodup := by simpa using hnd
    have hstep : upsertPostInto ps (postRowOf r uid) = ps ++ [postRowOf r uid] := by
      apply upsertPostInto_append
      intro p hp
      refine postConflict_eq_false p _ s ?_ ?_
      · rw [show (postRowOf r uid).key = postKey r from rfl, postKey_of_idField r hidr, hs]
      · have := hfresh r (List.mem_cons_self _ _) p hp
        rw [hs] at this
        exact this
    have hfr2 : ∀ x ∈ rs, ∀ p ∈ ps ++ [postRowOf r uid], p.key ≠ x.idField := by
      intro x hx p hp
      rcases List.mem_append.mp hp with hmem | hmem
      · exact hfresh x (List.mem_cons_of_mem _ hx) p hmem
      · have hpeq : p = postRowOf r uid := by simpa using hmem
        subst hpeq
        rw [show (postRowOf r uid).key = postKey r from rfl, postKey_of_idField r hidr]
        intro hc
        exact (List.nodup_cons.mp hnd2).1 (hc ▸ List.mem_map_of_mem RawPost.idField hx)
    rw [List.foldl_cons, hstep,
      ih (ps ++ [postRowOf r uid]) (fun x hx => hid x (List.mem_cons_of_mem _ hx))
        ((List.nodup_cons.mp hnd2).2) hfr2]
    simp

theorem upsertPostInto_conflict (ps : List PostRow) (nr : PostRow) (s : String)
    (hk : nr.key = some s) (hmem : some s ∈ ps.map PostRow.key) :
    (upsertPostInto ps nr).length = ps.length ∧
      (upsertPostInto ps nr).map PostRow.key = ps.map PostRow.key := by
  induction ps with
  | nil => simp at hmem
  | cons p ps ih =>
    unfold upsertPostInto
    by_cases hc : postConflict p nr = true
    · rw [if_pos hc]
      exact ⟨by simp, by simp [List.map_cons]; rfl⟩
    · rw [if_neg hc]
      have hpne : p.key ≠ some s := by
        intro hpk
        apply hc
        unfold postConflict
        rw [hpk, hk]
        simp
      have hmem2 : some s ∈ ps.map PostRow.key := by
        rw [List.map_cons] at hmem
        rcases List.mem_cons.mp hmem with h | h
        · exact absurd h.symm hpne
        · exact h
      obtain ⟨hlen, hkeys⟩ := ih hmem2
      exact ⟨by simpa using hlen, by simp [List.map_cons, hkeys]⟩

theorem foldl_upsert_present (uid : Nat) (L : List RawPost) (ps : List PostRow)
    (hpres : ∀ r ∈ L, ∃ s, (postRowOf r uid).key = some s ∧ some s ∈ ps.map PostRow.key) :
    (L.foldl (fun acc r => upsertPostInto acc (postRowOf r uid)) ps).length = ps.length ∧
      (L.foldl (fun acc r => upsertPostInto acc (postRowOf r uid)) ps).map PostRow.key =
        ps.map PostRow.key := by
  induction L generalizing ps with
  | nil => exact ⟨rfl, rfl⟩
  | cons r rs ih =>
    obtain ⟨s, hk, hmem⟩ := hpres r (List.mem_cons_self _ _)
    obtain ⟨hlen1, hkeys1⟩ := upsertPostInto_conflict ps (postRowOf r uid) s hk hmem
    rw [List.foldl_cons]
    obtain ⟨hlen2, hkeys2⟩ := ih (upsertPostInto ps (postRowOf r uid))
      (fun x hx => by
        obtain ⟨t, hkt, hmt⟩ := hpres x (List.mem_cons_of_mem _ hx)
        exact ⟨t, hkt, hkeys1 ▸ hmt⟩)
    exact ⟨hlen2.trans hlen1, hkeys2.trans hkeys1⟩

/-- Evaluation of one `posts` merge run when the owning user already exists. -/
theorem processPostsData_run_found (username : String) (r0 : RawPost) (rest : List RawPost)
    (db : DB) (uid : Nat)
    (hfil : (r0 :: rest).filter validPost = r0 :: rest)
    (hfound : getUserIdByUsername db username = some uid) :
    processPostsData username "posts" (r0 :: rest) db =
      ({ total := (r0 :: rest).length,
         new := ((r0 :: rest).filter (fun r => truthy (getItemId r) &&
           !(idMem (getItemId r) (getCollectedPostIds db uid)))).length,
         updated := ((r0 :: rest).filter (fun r => truthy (getItemId r) &&
           idMem (getItemId r) (getCollectedPostIds db uid))).length,
         data := r0 :: rest },
       batchUpsertPosts (r0 :: rest) uid db) := by
  unfold processPostsData
  rw [hfil, hfound]
  rfl

/-- Evaluation of one `posts` merge run when the owning user has to be
created from the first record. -/
theorem processPostsData_run_created (username : String) (r0 : RawPost) (rest : List RawPost)
    (db : DB)
    (hfil : (r0 :: rest).filter validPost = r0 :: rest)
    (hnone : getUserIdByUsername db username = none) :
    processPostsData username "posts" (r0 :: rest) db =
      ({ total := (r0 :: rest).length,
         new := ((r0 :: rest).filter (fun r => truthy (getItemId r) &&
           !(idMem (getItemId r)
             (getCollectedPostIds
               (upsertUser (some (jsOrStr r0.authorUsername username)) none db).2
               (upsertUser (some (jsOrStr r0.authorUsername username)) none db).1)))).length,
         updated := ((r0 :: rest).filter (fun r => truthy (getItemId r) &&
           idMem (getItemId r)
             (getCollectedPostIds
               (upsertUser (some (jsOrStr r0.authorUsername username)) none db).2
               (upsertUser (some (jsOrStr r0.authorUsername username)) none db).1))).length,
         data := r0 :: rest },
       batchUpsertPosts (r0 :: rest)
         (upsertUser (some (jsOrStr r0.authorUsername username)) none db).1
         (upsertUser (some (jsOrStr r0.authorUsername username)) none db).2) := by
  unfold processPostsData
  rw [hfil, hnone]
  rfl

/-- `upsertUser` when a row with the same username already exists. -/
theorem upsertUser_found (uname : String) (twId : Option String) (db : DB) (u : UserRow)
    (hfind : db.users.find? (fun x => x.username == some uname) = some u) :
    upsertUser (some uname) twId db =
      (u.id, { db with users := db.users.map (fun x =>
        if x.username == some uname then { x with twitterId := twId } else x) }) := by
  simp only [upsertUser]
  rw [hfind]
  rfl

/--
C1 counterexample: the claimed idempotence fails for a batch of one valid
record with (trivially) pairwise-distinct ids whose id lives only in the
`status_id` column.  `getItemId` accepts it (`ID || id || tweet_id ||
status_id || 'User ID'`), but `batchUpsertPosts` keys the stored row by
`post.ID || post.tweet_id || post.id`, i.e. by a NULL key here — so the
second run classifies the record as new again (`new = 1, updated = 0`
instead of the claimed `new = 0, updated = 1`) and the store grows to two
rows instead of holding one.
-/
theorem processPostsData_idempotent_cex :
    validPost statusOnlyPost = true ∧
    (processPostsData "alice" "posts" [statusOnlyPost] emptyDB).1.new = 1 ∧
    (processPostsData "alice" "posts" [statusOnlyPost] emptyDB).1.updated = 0 ∧
    (processPostsData "alice" "posts" [statusOnlyPost] emptyDB).2.posts.length = 1 ∧
    (processPostsData "alice" "posts" [statusOnlyPost]
      (processPostsData "alice" "posts" [statusOnlyPost] emptyDB).2).1.new = 1 ∧
    (processPostsData "alice" "posts" [statusOnlyPost]
      (processPostsData "alice" "posts" [statusOnlyPost] emptyDB).2).1.updated = 0 ∧
    (processPostsData "alice" "posts" [statusOnlyPost]
      (processPostsData "alice" "posts" [statusOnlyPost] emptyDB).2).2.posts.length = 2 ∧
    ¬((processPostsData "alice" "posts" [statusOnlyPost]
        (processPostsData "alice" "posts" [statusOnlyPost] emptyDB).2).1.new = 0 ∧
      (processPostsData "alice" "posts" [statusOnlyPost]
        (processPostsData "alice" "posts" [statusOnlyPost] emptyDB).2).1.updated = 1 ∧
      (processPostsData "alice" "posts" [statusOnlyPost]
        (processPostsData "alice" "posts" [statusOnlyPost] emptyDB).2).2.posts.length = 1) := by
  refine ⟨by decide, by decide, by decide, by decide, by decide, by decide, by decide, ?_⟩
  intro hcl
  exact absurd hcl.1 (by decide)

/--
C1 amended: merge idempotence holds for every batch of valid post records
with pairwise-distinct ids in which each record carries its id in the `ID`
column (as the scraped CSV rows do) — then the classification id
(`getItemId`) and the storage key of `batchUpsertPosts` coincide: running
`processPostsData` against the empty store returns `new = N`, `updated = 0`,
and leaves exactly `N` post rows keyed by the post ids; running it a second
time on the identical batch returns `new = 0`, `updated = N`, and the store
still holds exactly `N` rows.  (For valid records whose id lives only in
`status_id`/`User ID`, or whose `id` and `tweet_id` disagree, the two key
functions diverge and re-merge counts the record as new again.)
-/
theorem processPostsData_idempotent (username : String) (L : List RawPost)
    (hid : ∀ r ∈ L, truthy r.idField = true)
    (hnd : (L.map RawPost.idField).Nodup) :
    (processPostsData username "posts" L emptyDB).1.new = L.length ∧
    (processPostsData username "posts" L emptyDB).1.updated = 0 ∧
    (processPostsData username "posts" L emptyDB).2.posts.length = L.length ∧
    (processPostsData username "posts" L emptyDB).2.posts.map PostRow.key =
      L.map RawPost.idField ∧
    (processPostsData username "posts" L
      (processPostsData username "posts" L emptyDB).2).1.new = 0 ∧
    (processPostsData username "posts" L
      (processPostsData username "posts" L emptyDB).2).1.updated = L.length ∧
    (processPostsData username "posts" L
      (processPostsData username "posts" L emptyDB).2).2.posts.length = L.length := by
  cases L with
  | nil => exact ⟨rfl, rfl, rfl, rfl, rfl, rfl, rfl⟩
  | cons r0 rest =>
    have hv : ∀ r ∈ r0 :: rest, truthy (getItemId r) = true := fun r hr => by
      rw [getItemId_of_idField r (hid r hr)]
      exact hid r hr
    have hfil : (r0 :: rest).filter validPost = r0 :: rest :=
      List.filter_eq_self.mpr (fun r hr => hv r hr)
    have hids : ∀ r ∈ r0 :: rest, ∃ s, r.idField = some s ∧ getItemId r = some s ∧
        (postRowOf r 1).key = some s := by
      intro r hr
      cases hrf : r.idField with
      | none =>
        have := hid r hr
        rw [hrf] at this
        exact absurd this (by decide)
      | some a =>
        refine ⟨a, rfl, ?_, ?_⟩
        · rw [getItemId_of_idField r (hid r hr), hrf]
        · rw [show (postRowOf r 1).key = postKey r from rfl,
            postKey_of_idField r (hid r hr), hrf]
    have hrun1 := processPostsData_run_created username r0 rest emptyDB hfil rfl
    have hex1 : getCollectedPostIds
        (upsertUser (some (jsOrStr r0.authorUsername username)) none emptyDB).2
        (upsertUser (some (jsOrStr r0.authorUsername username)) none emptyDB).1 = [] := rfl
    rw [hex1] at hrun1
    have h1 : (processPostsData username "posts" (r0 :: rest) emptyDB).1.new =
        (r0 :: rest).length := by
      rw [hrun1]
      show (List.filter _ _).length = _
      rw [List.filter_eq_self.mpr]
      intro a ha
      rw [idMem_nil]
      simp [hv a ha]
    have h2 : (processPostsData username "posts" (r0 :: rest) emptyDB).1.updated = 0 := by
      rw [hrun1]
      show (List.filter _ _).length = 0
      rw [List.length_eq_zero]
      apply List.filter_eq_nil.mpr
      intro a ha
      rw [idMem_nil]
      simp
    have hposts1 : (processPostsData username "posts" (r0 :: rest) emptyDB).2.posts =
        (r0 :: rest).map (fun r => postRowOf r 1) := by
      rw [hrun1]
      show (r0 :: rest).foldl (fun acc r => upsertPostInto acc (postRowOf r 1)) [] = _
      have := foldl_upsert_fresh 1 (r0 :: rest) [] hid hnd (by intro r hr p hp; simp at hp)
      simpa using this
    have h3 : (processPostsData username "posts" (r0 :: rest) emptyDB).2.posts.length =
        (r0 :: rest).length := by
      rw [hposts1, List.length_map]
    have h4 : (processPostsData username "posts" (r0 :: rest) emptyDB).2.posts.map
        PostRow.key = (r0 :: rest).map RawPost.idField := by
      rw [hposts1, List.map_map]
      apply List.map_congr_left
      intro r hr
      show (postRowOf r 1).key = r.idField
      obtain ⟨s, hsf, _, hsk⟩ := hids r hr
      rw [hsk, hsf]
    have husers1 : (processPostsData username "posts" (r0 :: rest) emptyDB).2.users =
        [{ id := 1, username := some (jsOrStr r0.authorUsername username),
           twitterId := none }] := by
      rw [hrun1]
      rfl
    obtain ⟨dbx, hdbxposts, hrun2⟩ : ∃ dbx : DB,
        dbx.posts = (processPostsData username "posts" (r0 :: rest) emptyDB).2.posts ∧
        processPostsData username "posts" (r0 :: rest)
            (processPostsData username "posts" (r0 :: rest) emptyDB).2 =
          ({ total := (r0 :: rest).length,
             new := ((r0 :: rest).filter (fun r => truthy (getItemId r) &&
               !(idMem (getItemId r) (getCollectedPostIds dbx 1)))).length,
             updated := ((r0 :: rest).filter (fun r => truthy (getItemId r) &&
               idMem (getItemId r) (getCollectedPostIds dbx 1))).length,
             data := r0 :: rest },
           batchUpsertPosts (r0 :: rest) 1 dbx) := by
      by_cases hu : jsOrStr r0.authorUsername username = username
      · refine ⟨(processPostsData username "posts" (r0 :: rest) emptyDB).2, rfl, ?_⟩
        have hfound : getUserIdByUsername
            (processPostsData username "posts" (r0 :: rest) emptyDB).2 username = some 1 := by
          unfold getUserIdByUsername
          rw [husers1, hu]
          simp [List.find?]
        exact processPostsData_run_found username r0 rest _ 1 hfil hfound
      · have hnone2 : getUserIdByUsername
            (processPostsData username "posts" (r0 :: rest) emptyDB).2 username = none := by
          unfold getUserIdByUsername
          rw [husers1]
          rw [List.find?_cons_of_neg _ (by simp [hu])]
          rfl
        have hfind2 : (processPostsData username "posts" (r0 :: rest) emptyDB).2.users.find?
            (fun x => x.username == some (jsOrStr r0.authorUsername username)) =
            some { id := 1, username := some (jsOrStr r0.authorUsername username),
                   twitterId := none } := by
          rw [husers1]
          simp [List.find?]
        have hups2 := upsertUser_found (jsOrStr r0.authorUsername username) none
          (processPostsData username "posts" (r0 :: rest) emptyDB).2 _ hfind2
        have hfst : (upsertUser (some (jsOrStr r0.authorUsername username)) none
            (processPostsData username "posts" (r0 :: rest) emptyDB).2).1 = 1 := by
          rw [hups2]
        refine ⟨(upsertUser (some (jsOrStr r0.authorUsername username)) none
            (processPostsData username "posts" (r0 :: rest) emptyDB).2).2, ?_, ?_⟩
        · rw [hups2]
        · have h := processPostsData_run_created username r0 rest
            (processPostsData username "posts" (r0 :: rest) emptyDB).2 hfil hnone2
          rw [hfst] at h
          exact h
    have hcoll : getCollectedPostIds dbx 1 =
        getCollectedPostIds (processPostsData username "posts" (r0 :: rest) emptyDB).2 1 := by
      unfold getCollectedPostIds
      rw [hdbxposts]
    have hexists2 : ∀ r ∈ r0 :: rest,
        idMem (getItemId r) (getCollectedPostIds dbx 1) = true := by
      intro r hr
      obtain ⟨s, _, hgi, hkey⟩ := hids r hr
      have hmemrow : postRowOf r 1 ∈
          (processPostsData username "posts" (r0 :: rest) emptyDB).2.posts := by
        rw [hposts1]
        exact List.mem_map_of_mem _ hr
      have hsmem : s ∈ getCollectedPostIds dbx 1 := by
        rw [hcoll]
        unfold getCollectedPostIds
        apply List.mem_filterMap.mpr
        refine ⟨postRowOf r 1, ?_, hkey⟩
        apply List.mem_filter.mpr
        exact ⟨hmemrow, rfl⟩
      rw [hgi]
      exact contains_of_mem _ s hsmem
    have h5 : (processPostsData username "posts" (r0 :: rest)
        (processPostsData username "posts" (r0 :: rest) emptyDB).2).1.new = 0 := by
      rw [hrun2]
      show (List.filter _ _).length = 0
      rw [List.length_eq_zero]
      apply List.filter_eq_nil.mpr
      intro a ha
      rw [hexists2 a ha]
      simp
    have h6 : (processPostsData username "posts" (r0 :: rest)
        (processPostsData username "posts" (r0 :: rest) emptyDB).2).1.updated =
        (r0 :: rest).length := by
      rw [hrun2]
      show (List.filter _ _).length = _
      rw [List.filter_eq_self.mpr]
      intro a ha
      rw [hexists2 a ha, hv a ha]
      rfl
    have h7 : (processPostsData username "posts" (r0 :: rest)
        (processPostsData username "posts" (r0 :: rest) emptyDB).2).2.posts.length =
        (r0 :: rest).length := by
      rw [hrun2]
      show ((r0 :: rest).foldl (fun acc r => upsertPostInto acc (postRowOf r 1))
        dbx.posts).length = _
      have hpres : ∀ r ∈ r0 :: rest, ∃ s, (postRowOf r 1).key = some s ∧
          some s ∈ dbx.posts.map PostRow.key := by
        intro r hr
        obtain ⟨s, _, _, hkey⟩ := hids r hr
        refine ⟨s, hkey, ?_⟩
        rw [hdbxposts, hposts1]
        have := List.mem_map_of_mem PostRow.key
          (List.mem_map_of_mem (fun r => postRowOf r 1) hr)
        rw [List.map_map] at this
        rw [List.map_map]
        exact hkey ▸ this
      rw [(foldl_upsert_present 1 (r0 :: rest) dbx.posts hpres).1]
      rw [hdbxposts, hposts1, List.length_map]
    exact ⟨h1, h2, h3, h4, h5, h6, h7⟩

/-- C1 witness: the two-record batch, via `processPostsData_idempotent`. -/
theorem processPostsData_idempotent_witness :
    (processPostsData "alice" "posts" twoBatch emptyDB).1.new = twoBatch.length ∧
    (processPostsData "alice" "posts" twoBatch emptyDB).1.updated = 0 ∧
    (processPostsData "alice" "posts" twoBatch emptyDB).2.posts.length = twoBatch.length ∧
    (processPostsData "alice" "posts" twoBatch emptyDB).2.posts.map PostRow.key =
      twoBatch.map RawPost.idField ∧
    (processPostsData "alice" "posts" twoBatch
      (processPostsData "alice" "posts" twoBatch emptyDB).2).1.new = 0 ∧
    (processPostsData "alice" "posts" twoBatch
      (processPostsData "alice" "posts" twoBatch emptyDB).2).1.updated = twoBatch.length ∧
    (processPostsData "alice" "posts" twoBatch
      (processPostsData "alice" "posts" twoBatch emptyDB).2).2.posts.length =
      twoBatch.length :=
  processPostsData_idempotent "alice" twoBatch (by decide) (by decide)
